import Mathlib

/-!
Verification of the link-resolution / download-orchestration core of
`vid_load` (`src/app.py`): the format Filter/Ranker
(`filter_video_formats`), the Link Resolver (`handle_link`), the
Selection Store (`context.user_data['video_info']`) and the Download
Orchestrator (`button_handler`), shallowly embedded in Lean.

Conventions of the embedding:
- Python dict lookups `fmt.get(k)` become `Option` fields.
- Python truthiness of `a or b` on sizes is modelled exactly: `None`
  and `0` are falsy.
- The external capabilities (yt-dlp extraction, yt-dlp download, the
  Telegram delivery calls) are modelled by oracles: an `ExtractResult`
  for `extract_info` and a `DownloadEnv` describing what the download
  and delivery calls do. The working directory is a list of file names.
-/

namespace VidLoad

/-- One raw format descriptor as returned by the extraction capability.
Dict keys read with `.get` in `app.py` are `Option` fields; `format_id`
is read with `fmt['format_id']` (mandatory) and is kept total. -/
structure Fmt where
  format_id : String
  vcodec : Option String
  acodec : Option String
  ext : Option String
  height : Option Int
  filesize : Option Int
  filesize_approx : Option Int
  deriving DecidableEq, Repr

/-- One entry of the list built by `filter_video_formats`
(`{'format_id': ..., 'height': ..., 'filesize': ...}`, app.py line 36). -/
structure Filtered where
  format_id : String
  height : Int
  filesize : Int
  deriving DecidableEq, Repr

/-- The allowed resolutions (`allowed_res = {360, 480, 720, 1080}`, app.py line 29). -/
def allowed_res : List Int := [360, 480, 720, 1080]

/-- Python `fmt.get('filesize') or fmt.get('filesize_approx')` (app.py
line 34): `or` returns the left operand when it is truthy (present and
nonzero), otherwise the right operand. -/
def sizeVal (f : Fmt) : Option Int :=
  match f.filesize with
  | some n => if n == 0 then f.filesize_approx else some n
  | none => f.filesize_approx

/-- The admission test of app.py lines 32-35: video codec present,
audio codec absent, container mp4, height in the allow-set, and a
truthy size (`None` in `allowed_res` and a falsy size both reject). -/
def admitted (f : Fmt) : Bool :=
  (f.vcodec != some "none") && (f.acodec == some "none") && (f.ext == some "mp4") &&
  (match f.height with
   | some h => allowed_res.contains h
   | none => false) &&
  (match sizeVal f with
   | some n => n != 0
   | none => false)

/-- The record appended for an admitted descriptor (app.py line 36). -/
def entryOf (f : Fmt) : Filtered :=
  { format_id := f.format_id, height := f.height.getD 0, filesize := (sizeVal f).getD 0 }

/-- The loop of app.py lines 30-37: walk the descriptors, keeping the
`seen_heights` set, appending the entry of each admitted descriptor
whose height has not been seen. -/
def filterGo : List Fmt → List Int → List Filtered
  | [], _ => []
  | f :: fs, seen =>
    if admitted f && !(seen.contains (f.height.getD 0)) then
      entryOf f :: filterGo fs (f.height.getD 0 :: seen)
    else
      filterGo fs seen

/-- The descending-by-height order used by
`sorted(filtered, key=lambda x: x['height'], reverse=True)` (app.py
line 38); CPython's sort is stable, as is `List.insertionSort`. -/
def heightGe (a b : Filtered) : Prop := b.height ≤ a.height

instance : DecidableRel heightGe := fun a b => Int.decLe b.height a.height

/-- `filter_video_formats` of app.py lines 25-38. -/
def filter_video_formats (formats : List Fmt) : List Filtered :=
  List.insertionSort heightGe (filterGo formats [])

/-- The metadata dict returned by `extract_info`; keys `app.py` reads
with `.get` are `Option` fields. -/
structure MediaInfo where
  webpage_url : Option String
  title : Option String
  id : Option String
  formats : List Fmt
  deriving DecidableEq, Repr

/-- The conversation's slot of the Selection Store
(`context.user_data['video_info']`): the key may be absent, or hold a
stored Python value, which itself may be `None` (the extraction result
is stored unconditionally at app.py line 65). -/
inductive StoreEntry where
  | absent
  | stored (v : Option MediaInfo)
  deriving DecidableEq, Repr

/-- `context.user_data.get('video_info')` (app.py line 107): an absent
key and a stored `None` both read back as `None`. -/
def storeGet : StoreEntry → Option MediaInfo
  | .absent => none
  | .stored v => v

/-- Outcome of the `ydl.extract_info(url, download=False)` call: a
metadata dict, a `None` return, or a raised exception. -/
inductive ExtractResult where
  | ok (info : MediaInfo)
  | null
  | thrown
  deriving DecidableEq, Repr

/-- The user-visible end state of `handle_link`: either the edited
choice prompt (title plus one button per choice, app.py lines 84-90),
or the fixed apology message of app.py line 97. -/
inductive LinkMsg where
  | prompt (title : String) (selectors : List String)
  | apology
  deriving DecidableEq, Repr

/-- Callback payloads of the rendered keyboard (app.py lines 68-78):
`str(fmt['height'])` per video choice, then the fixed `"audio"` button. -/
def choicesOf (formats : List Fmt) : List String :=
  (filter_video_formats formats).map (fun r => toString r.height) ++ ["audio"]

/-- `handle_link` (app.py lines 51-98) as a function of the extraction
outcome and the conversation's Selection Store entry, returning the new
store entry and the final user-visible message. On a dict result the
store is written (line 65) and the prompt rendered; on a `None` result
the store is written with `None` (line 65) before `info.get('formats')`
raises at line 66, so the handler falls into the `except` branch; on a
raised extraction error the store write is never reached. -/
def handle_link (res : ExtractResult) (entry : StoreEntry) : StoreEntry × LinkMsg :=
  match res with
  | .thrown => (entry, .apology)
  | .null => (.stored none, .apology)
  | .ok info =>
      (.stored (some info),
       .prompt (info.title.getD "this video") (choicesOf info.formats))

/-- Behaviour of the external download and delivery calls during one
`button_handler` run: whether `ydl.download` raises, which files it
leaves in the working directory when it returns, and whether the
`send_audio` / `send_video` delivery call succeeds. -/
structure DownloadEnv where
  downloadRaises : Bool
  filesWritten : List String
  sendOk : Bool
  deriving DecidableEq, Repr

/-- The stale-selection message of app.py line 110. -/
def resend_text : String := "Sorry, something went wrong. Please send the link again."

/-- The success message of app.py line 155. -/
def complete_text : String := "✅ Download complete!"

/-- The failure message of app.py line 159. -/
def failure_text : String := "❌ An error occurred during download. Please try again."

/-- The audio-branch format selector (app.py line 126). -/
def audio_format_selector : String := "bestaudio[ext=m4a]/bestaudio/best"

/-- The video-branch format selector (app.py line 141): the callback
payload is interpolated verbatim into the height filter. -/
def video_format_selector (choice : String) : String :=
  s!"bestvideo[ext=mp4][height={choice}]+bestaudio[ext=m4a]/best[ext=mp4]/best"

/-- The expected final filename (app.py lines 135 and 150):
`chat_id` and the media id with extension `.mp3` on the audio branch
and `.mp4` otherwise; the callback payload never enters the name. -/
def final_filename (chat_id : Int) (info : MediaInfo) (choice : String) : String :=
  let vid := info.id.getD "video"
  if choice == "audio" then s!"{chat_id}_{vid}.mp3" else s!"{chat_id}_{vid}.mp4"

/-- Observable outcome of one `button_handler` run: the files left in
the working directory, the final edited message, the format selector
passed to the download capability (`none` when no download was
attempted), the url passed to it, and the expected filename it tried to
open (`none` when execution never reached that point). -/
structure BHResult where
  files : List String
  finalMessage : String
  usedFormat : Option String
  usedUrl : Option (Option String)
  expectedFile : Option String
  deriving DecidableEq, Repr

/-- `button_handler` (app.py lines 100-159) as a function of the button
payload, the chat id, the conversation's store entry, the capability
behaviour and the initial working directory. Mirrors the control flow:
absent/falsy record → stale message and return (lines 109-111); else a
download is attempted; `os.remove` runs only after a successful
delivery; every raise lands in the `except` branch (line 157), which
performs no cleanup. -/
def button_handler (choice : String) (chat_id : Int) (entry : StoreEntry)
    (env : DownloadEnv) (files : List String) : BHResult :=
  match storeGet entry with
  | none =>
      { files := files, finalMessage := resend_text,
        usedFormat := none, usedUrl := none, expectedFile := none }
  | some info =>
      let fmtSel := if choice == "audio" then audio_format_selector
                    else video_format_selector choice
      let url := info.webpage_url
      if env.downloadRaises then
        { files := files, finalMessage := failure_text,
          usedFormat := some fmtSel, usedUrl := some url, expectedFile := none }
      else
        let files1 := files ++ env.filesWritten
        let fname := final_filename chat_id info choice
        if fname ∈ files1 then
          if env.sendOk then
            { files := files1.erase fname, finalMessage := complete_text,
              usedFormat := some fmtSel, usedUrl := some url, expectedFile := some fname }
          else
            { files := files1, finalMessage := failure_text,
              usedFormat := some fmtSel, usedUrl := some url, expectedFile := some fname }
        else
          { files := files1, finalMessage := failure_text,
            usedFormat := some fmtSel, usedUrl := some url, expectedFile := some fname }

/-- The options dict passed to `yt_dlp.YoutubeDL` in `handle_link`
(app.py line 61), restricted to the keys the spec speaks about. Keys
not present in the dict take the capability's defaults: no
`http_headers` / user-agent override and `ignoreerrors = False`. -/
structure YdlInfoOpts where
  quiet : Bool
  skip_download : Bool
  http_headers : Option String
  ignoreerrors : Bool
  deriving DecidableEq, Repr

/-- The literal options of `yt_dlp.YoutubeDL({'quiet': True, 'skip_download': True})`. -/
def handle_link_opts : YdlInfoOpts :=
  { quiet := true, skip_download := true, http_headers := none, ignoreerrors := false }

/-- The `download` keyword of `ydl.extract_info(url, download=False)` (app.py line 62). -/
def extract_download_flag : Bool := false

/-- First descriptor of the spec's three-descriptor scenario. -/
def fmt720a : Fmt :=
  { format_id := "f1", vcodec := some "h264", acodec := some "none", ext := some "mp4",
    height := some 720, filesize := some 5000000, filesize_approx := none }

/-- Second descriptor of the spec's three-descriptor scenario. -/
def fmt480 : Fmt :=
  { format_id := "f2", vcodec := some "h264", acodec := some "none", ext := some "mp4",
    height := some 480, filesize := some 3000000, filesize_approx := none }

/-- Third descriptor of the spec's scenario: a 720p duplicate with a smaller size. -/
def fmt720b : Fmt :=
  { format_id := "f3", vcodec := some "h264", acodec := some "none", ext := some "mp4",
    height := some 720, filesize := some 4500000, filesize_approx := none }

/-- The scenario input list of spec section 8. -/
def demo_formats : List Fmt := [fmt720a, fmt480, fmt720b]

/-- A concrete resolved media record (the "old" one in claim C2). -/
def infoA : MediaInfo :=
  { webpage_url := some "https://a.example/watch", title := some "Video A",
    id := some "abc", formats := demo_formats }

/-- A second concrete resolved media record (the "new" one in claim C2). -/
def infoB : MediaInfo :=
  { webpage_url := some "https://b.example/watch", title := some "Video B",
    id := some "xyz", formats := [fmt480] }

/-- A descriptor whose size fields are both present but zero (claim C9). -/
def fmtZeroSize : Fmt :=
  { format_id := "f9", vcodec := some "h264", acodec := some "none", ext := some "mp4",
    height := some 720, filesize := some 0, filesize_approx := some 0 }

/-- Helper: everything observable about one `button_handler` run when the
Selection Store holds a record: the download is always attempted with the
branch's format selector and the record's url; the final message is the
completion or the failure text; and the working directory shrinks by the
expected file exactly when the download returned, the expected file exists
and the delivery succeeded. -/
theorem button_handler_spec (choice : String) (chat : Int) (entry : StoreEntry)
    (info : MediaInfo) (env : DownloadEnv) (files : List String)
    (h : storeGet entry = some info) :
    (button_handler choice chat entry env files).usedFormat =
      some (if choice == "audio" then audio_format_selector else video_format_selector choice) ∧
    (button_handler choice chat entry env files).usedUrl = some info.webpage_url ∧
    ((button_handler choice chat entry env files).finalMessage = complete_text ∨
     (button_handler choice chat entry env files).finalMessage = failure_text) ∧
    (env.downloadRaises = false →
      (button_handler choice chat entry env files).expectedFile =
        some (final_filename chat info choice) ∧
      (button_handler choice chat entry env files).files =
        (if final_filename chat info choice ∈ files ++ env.filesWritten ∧ env.sendOk = true
         then (files ++ env.filesWritten).erase (final_filename chat info choice)
         else files ++ env.filesWritten)) ∧
    (env.downloadRaises = true →
      (button_handler choice chat entry env files).files = files) := by
  unfold button_handler
  rw [h]
  by_cases hdr : env.downloadRaises = true
  · simp [hdr]
  · simp only [Bool.not_eq_true] at hdr
    by_cases hmem : final_filename chat info choice ∈ files ++ env.filesWritten
    · by_cases hs : env.sendOk = true
      · simp [hdr, hmem, hs]
      · simp only [Bool.not_eq_true] at hs
        simp [hdr, hmem, hs]
    · simp [hdr, hmem]

/-- C1 counterexample: a download run in which yt-dlp returns normally and
writes the expected file, but the delivery call fails, leaves the file in
the working directory — the claim that every exit path ends with zero
files for the conversation is false. -/
theorem C1_counterexample_leftover_file :
    (button_handler "720" 1 (.stored (some infoA))
        { downloadRaises := false, filesWritten := ["1_abc.mp4"], sendOk := false } []).files
      = ["1_abc.mp4"] ∧
    (button_handler "720" 1 (.stored (some infoA))
        { downloadRaises := false, filesWritten := ["1_abc.mp4"], sendOk := false } []).finalMessage
      = failure_text := by
  exact ⟨rfl, rfl⟩

/-- C1 amended: the local file is removed only on the fully successful
path (download returned, expected file present, delivery succeeded); when
the delivery call fails, or the expected file is absent, whatever the
download wrote stays in the working directory — `os.remove` is inside the
`try` after the send, and the `except` branch performs no cleanup. -/
theorem C1_cleanup_only_on_success (choice : String) (chat : Int) (entry : StoreEntry)
    (env : DownloadEnv) (files : List String) (info : MediaInfo)
    (h : storeGet entry = some info) (hdl : env.downloadRaises = false) :
    ((final_filename chat info choice ∈ files ++ env.filesWritten ∧ env.sendOk = true) →
      ((files ++ env.filesWritten).Nodup →
        final_filename chat info choice ∉ (button_handler choice chat entry env files).files)) ∧
    ((final_filename chat info choice ∈ files ++ env.filesWritten ∧ env.sendOk = false) →
      (button_handler choice chat entry env files).files = files ++ env.filesWritten) ∧
    ((final_filename chat info choice ∉ files ++ env.filesWritten) →
      (button_handler choice chat entry env files).files = files ++ env.filesWritten) := by
  have hspec := (button_handler_spec choice chat entry info env files h).2.2.2.1 hdl
  refine ⟨?_, ?_, ?_⟩
  · intro hc hnd
    rw [hspec.2, if_pos hc]
    exact hnd.not_mem_erase
  · intro hc
    rw [hspec.2, if_neg]
    rintro ⟨-, hs⟩
    rw [hc.2] at hs
    exact Bool.false_ne_true hs
  · intro hc
    rw [hspec.2, if_neg]
    rintro ⟨hm, -⟩
    exact hc hm

/-- C1 witness: on the successful concrete run the expected file is gone
from the working directory afterwards. -/
theorem C1_cleanup_witness :
    final_filename 1 infoA "720" ∉ (button_handler "720" 1 (.stored (some infoA))
        { downloadRaises := false, filesWritten := ["1_abc.mp4"], sendOk := true } []).files := by
  have h := C1_cleanup_only_on_success "720" 1 (.stored (some infoA))
      { downloadRaises := false, filesWritten := ["1_abc.mp4"], sendOk := true } [] infoA rfl rfl
  exact h.1 ⟨by decide, rfl⟩ (by decide)

/-- C2 counterexample: conversation resolves record A (its prompt carries
selector "720"), then resolves record B; pressing the old "720" button
does not produce the stale-selection message — it downloads record B's
media at height 720 and reports completion. -/
theorem C2_counterexample_old_button_downloads :
    (handle_link (.ok infoA) .absent).snd = .prompt "Video A" ["720", "480", "audio"] ∧
    (handle_link (.ok infoB) (handle_link (.ok infoA) .absent).fst).fst
      = .stored (some infoB) ∧
    (button_handler "720" 1 (.stored (some infoB))
        { downloadRaises := false, filesWritten := ["1_xyz.mp4"], sendOk := true } []).finalMessage
      = complete_text ∧
    complete_text ≠ resend_text ∧
    (button_handler "720" 1 (.stored (some infoB))
        { downloadRaises := false, filesWritten := ["1_xyz.mp4"], sendOk := true } []).usedFormat
      = some (video_format_selector "720") ∧
    (button_handler "720" 1 (.stored (some infoB))
        { downloadRaises := false, filesWritten := ["1_xyz.mp4"], sendOk := true } []).usedUrl
      = some (some "https://b.example/watch") := by
  refine ⟨by decide, rfl, rfl, by decide, rfl, rfl⟩

/-- C2 amended: resolving a new link does discard the old record entirely
(the store slot is overwritten), but a later button press with any
selector from the old prompt is interpreted against the new record: a
download is attempted and the stale-selection message is never produced
while a record is stored. -/
theorem C2_new_link_overwrites (newInfo : MediaInfo) (oldEntry : StoreEntry)
    (choice : String) (chat : Int) (env : DownloadEnv) (files : List String) :
    (handle_link (.ok newInfo) oldEntry).fst = .stored (some newInfo) ∧
    ((button_handler choice chat (.stored (some newInfo)) env files).usedFormat).isSome = true ∧
    (button_handler choice chat (.stored (some newInfo)) env files).finalMessage ≠ resend_text := by
  have h := button_handler_spec choice chat (.stored (some newInfo)) newInfo env files rfl
  refine ⟨rfl, by rw [h.1]; rfl, ?_⟩
  rcases h.2.2.1 with hm | hm <;> rw [hm] <;> decide

/-- C3 counterexample: when extraction returns `None` for a conversation
that already holds record A, the handler does show the apology, but the
Selection Store slot is overwritten with the stored `None` (app.py line
65 runs before line 66 raises) — the store is not left as it was. -/
theorem C3_counterexample_store_clobbered :
    handle_link .null (.stored (some infoA)) = (.stored none, .apology) ∧
    (handle_link .null (.stored (some infoA))).fst ≠ .stored (some infoA) := by
  refine ⟨rfl, by decide⟩

/-- C3 amended: on a null extraction result the placeholder is edited to
the fixed apology, and the store slot is written with the null result
(overwriting whatever was there), after which reads of the slot yield no
record. -/
theorem C3_null_result_apology (entry : StoreEntry) :
    handle_link .null entry = (.stored none, .apology) ∧
    storeGet (handle_link .null entry).fst = none := ⟨rfl, rfl⟩

/-- C4: a button press finding no stored record (absent slot or stored
null) replies with the fixed resend message and stops: no download is
attempted, no url or filename is touched, and the working directory is
unchanged. -/
theorem C4_stale_selection_terminal (choice : String) (chat : Int) (entry : StoreEntry)
    (env : DownloadEnv) (files : List String) (h : storeGet entry = none) :
    button_handler choice chat entry env files =
      { files := files, finalMessage := resend_text,
        usedFormat := none, usedUrl := none, expectedFile := none } := by
  unfold button_handler
  rw [h]

/-- C4 witness: the concrete stale press with selector "720". -/
theorem C4_stale_selection_witness :
    button_handler "720" 1 .absent
        { downloadRaises := false, filesWritten := [], sendOk := true } [] =
      { files := [], finalMessage := resend_text,
        usedFormat := none, usedUrl := none, expectedFile := none } :=
  C4_stale_selection_terminal "720" 1 .absent
    { downloadRaises := false, filesWritten := [], sendOk := true } [] rfl

/-- C5 counterexample: the options dict of the extraction call configures
no identity header and leaves error tolerance at its default `False` —
the claim that every extraction call supplies a browser-like identity
header and a tolerate-partial-failures policy is false. -/
theorem C5_counterexample_no_header_no_tolerance :
    ¬ (handle_link_opts.http_headers.isSome = true ∧ handle_link_opts.ignoreerrors = true) := by
  decide

/-- C5 amended: the extraction call is metadata-only (`quiet` and
`skip_download` set, `download=False`), but it passes no identity header
and sets no tolerate-partial-failures policy: the dict is exactly
quiet plus skip_download. -/
theorem C5_extraction_options :
    handle_link_opts =
      { quiet := true, skip_download := true, http_headers := none, ignoreerrors := false } ∧
    extract_download_flag = false := ⟨rfl, rfl⟩

/-- C6: on the spec's three-descriptor scenario the Filter/Ranker emits
the first 720p descriptor (size 5000000), then the 480p one (size
3000000), the later 720p duplicate is dropped, and the rendered choices
are 720, 480, then the audio-only button. -/
theorem C6_scenario_ranking :
    filter_video_formats demo_formats =
      [{ format_id := "f1", height := 720, filesize := 5000000 },
       { format_id := "f2", height := 480, filesize := 3000000 }] ∧
    choicesOf demo_formats = ["720", "480", "audio"] := by
  refine ⟨by decide, by decide⟩

/-- C10 counterexample: payload "999" reaches the point where the
expected output name is computed, and that name, `1_abc.mp4`, does not
contain the payload — the payload is not interpolated into the expected
output filename. -/
theorem C10_counterexample_payload_not_in_filename :
    (button_handler "999" 1 (.stored (some infoA))
        { downloadRaises := false, filesWritten := [], sendOk := true } []).expectedFile
      = some "1_abc.mp4" ∧
    ¬ List.IsInfix "999".data "1_abc.mp4".data ∧
    (button_handler "999" 1 (.stored (some infoA))
        { downloadRaises := false, filesWritten := [], sendOk := true } []).usedFormat
      = some (video_format_selector "999") := by
  refine ⟨rfl, by decide, rfl⟩

/-- C10 amended: exactly the payload "audio" takes the audio branch; any
other payload takes the video branch, where it is interpolated verbatim
into the download format selector, while the expected output filename is
the chat id and media id with extension .mp4, independent of the
payload. -/
theorem C10_selector_branching (choice : String) (chat : Int) (entry : StoreEntry)
    (env : DownloadEnv) (files : List String) (info : MediaInfo)
    (h : storeGet entry = some info) :
    (choice = "audio" →
      (button_handler choice chat entry env files).usedFormat = some audio_format_selector) ∧
    (choice ≠ "audio" →
      (button_handler choice chat entry env files).usedFormat
        = some (video_format_selector choice) ∧
      video_format_selector choice =
        "bestvideo[ext=mp4][height=" ++ choice ++ "]+bestaudio[ext=m4a]/best[ext=mp4]/best" ∧
      (env.downloadRaises = false →
        (button_handler choice chat entry env files).expectedFile =
          some (toString chat ++ "_" ++ info.id.getD "video" ++ ".mp4"))) := by
  have hspec := button_handler_spec choice chat entry info env files h
  constructor
  · intro hc
    rw [hspec.1, hc]
    rfl
  · intro hc
    have hcb : (choice == "audio") = false := by
      simp only [beq_eq_false_iff_ne, ne_eq]
      exact hc
    refine ⟨by rw [hspec.1, hcb]; rfl, rfl, ?_⟩
    intro hdl
    rw [(hspec.2.2.2.1 hdl).1]
    unfold final_filename
    rw [hcb]
    rfl

/-- Helper: an admitted descriptor has a present height. -/
theorem admitted_height {f : Fmt} (h : admitted f = true) :
    f.height = some (f.height.getD 0) := by
  unfold admitted at h
  cases hh : f.height with
  | none => rw [hh] at h; simp at h
  | some v => rfl

/-- Helper: an admitted descriptor's height is in the allow-set. -/
theorem admitted_height_mem {f : Fmt} (h : admitted f = true) :
    f.height.getD 0 ∈ allowed_res := by
  unfold admitted at h
  cases hh : f.height with
  | none => rw [hh] at h; simp at h
  | some v =>
    rw [hh] at h
    simp only [Bool.and_eq_true] at h
    have hc := h.1.2
    simp only [List.contains, List.elem_eq_mem, decide_eq_true_eq] at hc
    simpa [hh] using hc

/-- Helper: heights emitted by the filter loop avoid the seen set. -/
theorem filterGo_not_mem_seen :
    ∀ (l : List Fmt) (seen : List Int) (r : Filtered),
      r ∈ filterGo l seen → r.height ∉ seen := by
  intro l
  induction l with
  | nil => intro seen r hr; simp [filterGo] at hr
  | cons f fs ih =>
    intro seen r hr
    simp only [filterGo] at hr
    by_cases hcond : (admitted f && !(seen.contains (f.height.getD 0))) = true
    · rw [if_pos hcond] at hr
      simp only [Bool.and_eq_true, Bool.not_eq_true'] at hcond
      rcases List.mem_cons.mp hr with hre | hrm
      · subst hre
        intro hmem
        have : seen.contains (f.height.getD 0) = true := by
          simpa [List.contains] using hmem
        rw [hcond.2] at this
        exact Bool.false_ne_true this
      · intro hmem
        exact ih (f.height.getD 0 :: seen) r hrm (List.mem_cons_of_mem _ hmem)
    · rw [if_neg hcond] at hr
      exact ih seen r hr

/-- Helper: the filter loop never emits two entries with the same height. -/
theorem filterGo_heights_nodup :
    ∀ (l : List Fmt) (seen : List Int), ((filterGo l seen).map Filtered.height).Nodup := by
  intro l
  induction l with
  | nil => intro seen; simp [filterGo]
  | cons f fs ih =>
    intro seen
    simp only [filterGo]
    by_cases hcond : (admitted f && !(seen.contains (f.height.getD 0))) = true
    · rw [if_pos hcond]
      simp only [List.map_cons, List.nodup_cons]
      refine ⟨?_, ih _⟩
      intro hmem
      rcases List.mem_map.mp hmem with ⟨r, hr, hh⟩
      have := filterGo_not_mem_seen fs (f.height.getD 0 :: seen) r hr
      rw [hh] at this
      exact this (List.mem_cons_self _ _)
    · rw [if_neg hcond]
      exact ih seen

/-- Helper: every emitted height is in the allow-set. -/
theorem filterGo_height_allowed :
    ∀ (l : List Fmt) (seen : List Int) (r : Filtered),
      r ∈ filterGo l seen → r.height ∈ allowed_res := by
  intro l
  induction l with
  | nil => intro seen r hr; simp [filterGo] at hr
  | cons f fs ih =>
    intro seen r hr
    simp only [filterGo] at hr
    by_cases hcond : (admitted f && !(seen.contains (f.height.getD 0))) = true
    · rw [if_pos hcond] at hr
      simp only [Bool.and_eq_true] at hcond
      rcases List.mem_cons.mp hr with hre | hrm
      · subst hre
        exact admitted_height_mem hcond.1
      · exact ih _ r hrm
    · rw [if_neg hcond] at hr
      exact ih seen r hr

/-- Helper: every emitted entry is the image of the first descriptor of
the input that is admitted at that entry's height. -/
theorem filterGo_first_wins :
    ∀ (l : List Fmt) (seen : List Int) (r : Filtered), r ∈ filterGo l seen →
      ∃ f, l.find? (fun g => admitted g && (g.height == some r.height)) = some f ∧
        entryOf f = r := by
  intro l
  induction l with
  | nil => intro seen r hr; simp [filterGo] at hr
  | cons f fs ih =>
    intro seen r hr
    simp only [filterGo] at hr
    by_cases hcond : (admitted f && !(seen.contains (f.height.getD 0))) = true
    · rw [if_pos hcond] at hr
      simp only [Bool.and_eq_true, Bool.not_eq_true'] at hcond
      rcases List.mem_cons.mp hr with hre | hrm
      · refine ⟨f, ?_, hre.symm⟩
        apply List.find?_cons_of_pos
        have hh : r.height = f.height.getD 0 := by rw [hre]; rfl
        rw [hcond.1, hh, ← admitted_height hcond.1]
        simp
      · have hnot : r.height ∉ (f.height.getD 0 :: seen) :=
          filterGo_not_mem_seen fs _ r hrm
        have hne : f.height.getD 0 ≠ r.height := by
          intro he
          exact hnot (he ▸ List.mem_cons_self _ _)
        rcases ih _ r hrm with ⟨g, hg, he⟩
        refine ⟨g, ?_, he⟩
        rw [List.find?_cons_of_neg, hg]
        simp only [Bool.and_eq_true, beq_iff_eq, not_and]
        intro hadm hht
        rw [admitted_height hadm] at hht
        exact hne (Option.some_injective _ hht)
    · rw [if_neg hcond] at hr
      have hnot : r.height ∉ seen := filterGo_not_mem_seen fs seen r hr
      rcases ih seen r hr with ⟨g, hg, he⟩
      refine ⟨g, ?_, he⟩
      rw [List.find?_cons_of_neg, hg]
      simp only [Bool.and_eq_true, beq_iff_eq, not_and]
      intro hadm hht
      have hseen : seen.contains (f.height.getD 0) = true := by
        cases hb : seen.contains (f.height.getD 0) with
        | true => rfl
        | false =>
          exact absurd (by rw [Bool.and_eq_true, Bool.not_eq_true']; exact ⟨hadm, hb⟩) hcond
      rw [admitted_height hadm] at hht
      have : f.height.getD 0 = r.height := Option.some_injective _ hht
      rw [this] at hseen
      apply hnot
      simpa [List.contains] using hseen

/-- Helper: every admitted descriptor's height is represented in the
output unless it was already seen. -/
theorem filterGo_complete :
    ∀ (l : List Fmt) (seen : List Int) (f : Fmt), f ∈ l → admitted f = true →
      f.height.getD 0 ∈ seen ∨
        ∃ r ∈ filterGo l seen, r.height = f.height.getD 0 := by
  intro l
  induction l with
  | nil => intro seen f hf; exact absurd hf (List.not_mem_nil f)
  | cons g fs ih =>
    intro seen f hf hadm
    simp only [filterGo]
    by_cases hcond : (admitted g && !(seen.contains (g.height.getD 0))) = true
    · rw [if_pos hcond]
      rcases List.mem_cons.mp hf with hfe | hfm
      · subst hfe
        exact Or.inr ⟨entryOf f, List.mem_cons_self _ _, rfl⟩
      · rcases ih (g.height.getD 0 :: seen) f hfm hadm with hseen | ⟨r, hr, hh⟩
        · rcases List.mem_cons.mp hseen with he | hm
          · exact Or.inr ⟨entryOf g, List.mem_cons_self _ _, he.symm⟩
          · exact Or.inl hm
        · exact Or.inr ⟨r, List.mem_cons_of_mem _ hr, hh⟩
    · rw [if_neg hcond]
      rcases List.mem_cons.mp hf with hfe | hfm
      · subst hfe
        have hseen : seen.contains (f.height.getD 0) = true := by
          cases hb : seen.contains (f.height.getD 0) with
          | true => rfl
          | false =>
            exact absurd (by rw [Bool.and_eq_true, Bool.not_eq_true']; exact ⟨hadm, hb⟩) hcond
        exact Or.inl (by simpa [List.contains] using hseen)
      · exact ih seen f hfm hadm

/-- C7: the Filter/Ranker never emits two entries with the same height;
every emitted entry is built from the first admitted descriptor of the
input at that height (so later duplicates are dropped, whatever their
sizes); and every admitted descriptor's height is represented. -/
theorem C7_dedup_first_wins (l : List Fmt) :
    ((filter_video_formats l).map Filtered.height).Nodup ∧
    (∀ r ∈ filter_video_formats l,
      ∃ f, l.find? (fun g => admitted g && (g.height == some r.height)) = some f ∧
        entryOf f = r) ∧
    (∀ f ∈ l, admitted f = true →
      ∃ r ∈ filter_video_formats l, f.height = some r.height) := by
  have hperm : List.Perm (filter_video_formats l) (filterGo l []) :=
    List.perm_insertionSort heightGe (filterGo l [])
  refine ⟨?_, ?_, ?_⟩
  · exact ((hperm.map Filtered.height).nodup_iff).mpr (filterGo_heights_nodup l [])
  · intro r hr
    exact filterGo_first_wins l [] r (hperm.mem_iff.mp hr)
  · intro f hf hadm
    rcases filterGo_complete l [] f hf hadm with hseen | ⟨r, hr, hh⟩
    · exact absurd hseen (List.not_mem_nil _)
    · refine ⟨r, hperm.mem_iff.mpr hr, ?_⟩
      rw [admitted_height hadm, hh]

/-- C7 witness: on the scenario list the 720p output entry traces back to
the first 720p descriptor, and the dropped duplicate's height is still
represented. -/
theorem C7_dedup_first_wins_witness :
    (∃ f, demo_formats.find?
        (fun g => admitted g &&
          (g.height == some (Filtered.height
            { format_id := "f1", height := 720, filesize := 5000000 }))) = some f ∧
      entryOf f = { format_id := "f1", height := 720, filesize := 5000000 }) ∧
    (∃ r ∈ filter_video_formats demo_formats, fmt720b.height = some r.height) := by
  have h := C7_dedup_first_wins demo_formats
  exact ⟨h.2.1 { format_id := "f1", height := 720, filesize := 5000000 } (by decide),
         h.2.2 fmt720b (by decide) (by decide)⟩

/-- C8: the rendered choice set is never empty: it is the video choices
followed by the audio button, the audio selector never collides with a
video selector, and it occurs exactly once. -/
theorem C8_audio_choice_floor (l : List Fmt) :
    choicesOf l ≠ [] ∧
    choicesOf l = (filter_video_formats l).map (fun r => toString r.height) ++ ["audio"] ∧
    "audio" ∉ (filter_video_formats l).map (fun r => toString r.height) ∧
    (choicesOf l).count "audio" = 1 := by
  have hnav : "audio" ∉ (filter_video_formats l).map (fun r => toString r.height) := by
    intro hmem
    rcases List.mem_map.mp hmem with ⟨r, hr, hs⟩
    have hall : r.height ∈ allowed_res :=
      filterGo_height_allowed l [] r
        ((List.perm_insertionSort heightGe (filterGo l [])).mem_iff.mp hr)
    simp only [allowed_res, List.mem_cons, List.not_mem_nil, or_false] at hall
    rcases hall with h1 | h1 | h1 | h1 <;> rw [h1] at hs <;> exact absurd hs (by decide)
  refine ⟨by simp [choicesOf], rfl, hnav, ?_⟩
  rw [choicesOf, List.count_append, List.count_eq_zero.mpr hnav]
  decide

/-- C9: a descriptor whose size fields are both missing or zero is never
admitted, whatever its other fields: zero sizes are falsy in the
`filesize or filesize_approx` test, so the loop drops the descriptor
from any position and the output is unchanged. -/
theorem C9_zero_or_missing_size_rejected (f : Fmt) (fs : List Fmt) (seen : List Int)
    (h1 : f.filesize = none ∨ f.filesize = some 0)
    (h2 : f.filesize_approx = none ∨ f.filesize_approx = some 0) :
    admitted f = false ∧
    filterGo (f :: fs) seen = filterGo fs seen ∧
    filter_video_formats (f :: fs) = filter_video_formats fs := by
  have hsz : sizeVal f = none ∨ sizeVal f = some 0 := by
    unfold sizeVal
    rcases h1 with h1 | h1 <;> rcases h2 with h2 | h2 <;> rw [h1, h2] <;> simp
  have hadm : admitted f = false := by
    unfold admitted
    rcases hsz with hsz | hsz <;> rw [hsz] <;> simp
  refine ⟨hadm, ?_, ?_⟩
  · simp [filterGo, hadm]
  · unfold filter_video_formats
    simp [filterGo, hadm]

/-- C9 witness: the concrete descriptor with both sizes present but zero
is rejected and leaves the output unchanged. -/
theorem C9_size_rejected_witness :
    admitted fmtZeroSize = false ∧
    filterGo [fmtZeroSize] [] = filterGo [] [] ∧
    filter_video_formats [fmtZeroSize] = filter_video_formats [] :=
  C9_zero_or_missing_size_rejected fmtZeroSize [] [] (Or.inr rfl) (Or.inr rfl)

/-- C10 witness: the concrete video-branch run with payload "999". -/
theorem C10_selector_branching_witness :
    (button_handler "999" 1 (.stored (some infoA))
        { downloadRaises := false, filesWritten := [], sendOk := true } []).usedFormat
      = some (video_format_selector "999") ∧
    video_format_selector "999" =
      "bestvideo[ext=mp4][height=" ++ "999" ++ "]+bestaudio[ext=m4a]/best[ext=mp4]/best" ∧
    (button_handler "999" 1 (.stored (some infoA))
        { downloadRaises := false, filesWritten := [], sendOk := true } []).expectedFile
      = some (toString (1 : Int) ++ "_" ++ infoA.id.getD "video" ++ ".mp4") := by
  have h := (C10_selector_branching "999" 1 (.stored (some infoA))
      { downloadRaises := false, filesWritten := [], sendOk := true } [] infoA rfl).2
      (by decide)
  exact ⟨h.1, h.2.1, h.2.2 rfl⟩

end VidLoad
